import Mathlib

/-!
Index service of the-anna-project/index.

A shallow embedding of `service.go` and `spec.go`: the composite key, the five
CRUD methods of `service`, its constructor, its two lifecycle methods, the
method set of the `Service` interface, and the key-value store the methods talk
to.  The store is an external collaborator (`storage.Collection`), so the CRUD
methods are written against an interface of four operations and every one of them
returns, next to its Go results, the store state it leaves behind and the store
calls it issued.  The lifecycle methods return the service they leave behind and
the effects they had.
-/

namespace index

/-! ## Errors -/

/-- Go `error` values that reach this package.  The nil error is `none : Option Error`.
`storeNotFound` is the store's own not-found signal, `storage` any other failure
of the store, `notFound` and `invalidConfig` are this package's two error kinds. -/
inductive Error where
  | invalidConfig (msg : String)
  | notFound (msg : String)
  | storeNotFound (msg : String)
  | storage (msg : String)
  deriving DecidableEq, Repr

/-- Modelled from the spec: the two error sentinels `notFoundError` and
`invalidConfigError` of this package's error.go, which is not among the sources. -/
inductive Sentinel where
  | notFoundError
  | invalidConfigError
  deriving DecidableEq, Repr

/-- Modelled from the spec: `maskAny` of this package's error.go, which is not among
the sources.  The spec has store errors "propagated unmodified", so masking hands
back the error it was given, and nil stays nil. -/
def maskAny (err : Option Error) : Option Error := err

/-- Modelled from the spec: `maskAnyf` of this package's error.go, which is not among
the sources.  The spec has `maskAnyf(notFoundError, key)` be the normalized
`NotFoundError` carrying the key, and `maskAnyf(invalidConfigError, ...)` be the
`ConfigError`. -/
def maskAnyf (err : Sentinel) (f : String) : Option Error :=
  match err with
  | Sentinel.notFoundError => some (Error.notFound f)
  | Sentinel.invalidConfigError => some (Error.invalidConfig f)

/-- Modelled from the spec: `IsNotFound` of this package's error.go, which is not among
the sources: the predicate for "is a NotFoundError". -/
def IsNotFound (err : Option Error) : Bool :=
  match err with
  | some (Error.notFound _) => true
  | _ => false

/-- Modelled from the spec: `storageerror.IsNotFound` of the storage package, the
predicate recognising the store's distinguished not-found signal. -/
def storageerror.IsNotFound (err : Option Error) : Bool :=
  match err with
  | some (Error.storeNotFound _) => true
  | _ => false

/-! ## The store interface -/

/-- The four operations of `storage.Collection.Index` that this package calls, over a
store state `σ`.  `Exists` and `Get` are queries; `Set` and `Remove` return the
state they leave behind together with their error. -/
structure StorageService (σ : Type) where
  Exists : σ → String → Bool × Option Error
  Get : σ → String → String × Option Error
  Remove : σ → String → Option Error × σ
  Set : σ → String → String → Option Error × σ

/-- The part of `storage.Collection` this package uses: its `Index` store. -/
structure Collection (σ : Type) where
  Index : StorageService σ

/-- One call issued to the store. -/
inductive Call where
  | Exists (key : String)
  | Get (key : String)
  | Remove (key : String)
  | Set (key value : String)
  deriving DecidableEq, Repr

/-- The storage key a store call is about. -/
def Call.key : Call → String
  | Call.Exists k => k
  | Call.Get k => k
  | Call.Remove k => k
  | Call.Set k _ => k

/-- What a method leaves behind: its Go results, the store state afterwards and the
store calls it made, in order. -/
structure Outcome (σ α : Type) where
  ret : α
  store : σ
  calls : List Call

/-! ## The service -/

/-- The `done` flag of a `sync.Once`. -/
structure Once where
  done : Bool
  deriving DecidableEq, Repr

/-- The `closer` channel as far as this package touches it: it is only ever closed. -/
structure Chan where
  closed : Bool
  deriving DecidableEq, Repr

/-- The `service` struct. -/
structure service (σ : Type) where
  storage : Collection σ
  bootOnce : Once
  closer : Chan
  shutdownOnce : Once

/-- The part of `fmt.Sprintf` this package relies on, over the characters of the format:
`%s` writes the next operand verbatim, every other character is copied and a `%s`
with no operand left writes `%!s(MISSING)`.  Operands left over at the end are
dropped and no other verb is interpreted: the one format of this package consists
of four `%s` and is given four operands. -/
def sprintfChars : List Char → List String → List Char
  | [], _ => []
  | [c], _ => [c]
  | c :: d :: fmt, args =>
    if c = '%' ∧ d = 's' then
      match args with
      | a :: rest => a.data ++ sprintfChars fmt rest
      | [] => "%!s(MISSING)".data ++ sprintfChars fmt []
    else c :: sprintfChars (d :: fmt) args

/-- `fmt.Sprintf` on strings. -/
def Sprintf (format : String) (args : List String) : String :=
  String.mk (sprintfChars format.data args)

/-- `service.key`: the receiver is not used by the body and is left out. -/
def service.key (ns namespaceA namespaceB valueA : String) : String :=
  Sprintf "%s:%s:%s:%s" [ns, namespaceA, namespaceB, valueA]

/-- `service.Create`. -/
def service.Create {σ : Type} (s : service σ) (st : σ)
    (ns namespaceA namespaceB valueA valueB : String) : Outcome σ (Option Error) :=
  let key := service.key ns namespaceA namespaceB valueA
  let r := s.storage.Index.Exists st key
  if r.2.isSome then
    ⟨maskAny r.2, st, [Call.Exists key]⟩
  else if r.1 then
    ⟨none, st, [Call.Exists key]⟩
  else
    let w := s.storage.Index.Set st key valueB
    if w.1.isSome then
      ⟨maskAny w.1, w.2, [Call.Exists key, Call.Set key valueB]⟩
    else
      ⟨none, w.2, [Call.Exists key, Call.Set key valueB]⟩

/-- `service.Delete`. -/
def service.Delete {σ : Type} (s : service σ) (st : σ)
    (ns namespaceA namespaceB valueA : String) : Outcome σ (Option Error) :=
  let key := service.key ns namespaceA namespaceB valueA
  let w := s.storage.Index.Remove st key
  if w.1.isSome then
    ⟨maskAny w.1, w.2, [Call.Remove key]⟩
  else
    ⟨none, w.2, [Call.Remove key]⟩

/-- `service.Search`. -/
def service.Search {σ : Type} (s : service σ) (st : σ)
    (ns namespaceA namespaceB valueA : String) : Outcome σ (String × Option Error) :=
  let key := service.key ns namespaceA namespaceB valueA
  let r := s.storage.Index.Get st key
  if storageerror.IsNotFound r.2 then
    ⟨("", maskAnyf Sentinel.notFoundError key), st, [Call.Get key]⟩
  else if r.2.isSome then
    ⟨("", maskAny r.2), st, [Call.Get key]⟩
  else
    ⟨(r.1, none), st, [Call.Get key]⟩

/-- `service.Exists`. -/
def service.Exists {σ : Type} (s : service σ) (st : σ)
    (ns namespaceA namespaceB valueA : String) : Outcome σ (Bool × Option Error) :=
  let q := s.Search st ns namespaceA namespaceB valueA
  if IsNotFound q.ret.2 then
    ⟨(false, none), q.store, q.calls⟩
  else if q.ret.2.isSome then
    ⟨(false, maskAny q.ret.2), q.store, q.calls⟩
  else
    ⟨(true, none), q.store, q.calls⟩

/-- `service.Update`. -/
def service.Update {σ : Type} (s : service σ) (st : σ)
    (ns namespaceA namespaceB valueA valueB : String) : Outcome σ (Option Error) :=
  let key := service.key ns namespaceA namespaceB valueA
  let r := s.storage.Index.Exists st key
  if r.2.isSome then
    ⟨maskAny r.2, st, [Call.Exists key]⟩
  else if !r.1 then
    ⟨maskAnyf Sentinel.notFoundError key, st, [Call.Exists key]⟩
  else
    let w := s.storage.Index.Set st key valueB
    if w.1.isSome then
      ⟨maskAny w.1, w.2, [Call.Exists key, Call.Set key valueB]⟩
    else
      ⟨none, w.2, [Call.Exists key, Call.Set key valueB]⟩

/-! ## Construction and lifecycle -/

/-- The `ServiceConfig` struct; a nil `StorageCollection` pointer is `none`. -/
structure ServiceConfig (σ : Type) where
  StorageCollection : Option (Collection σ)

/-- Modelled from the spec: `IsInvalidConfig` of this package's error.go, which is not
among the sources: the predicate for "is a ConfigError". -/
def IsInvalidConfig (err : Option Error) : Bool :=
  match err with
  | some (Error.invalidConfig _) => true
  | _ => false

/-- `NewService`, returning Go's pair of service and error; a nil service is `none`.
The zero `sync.Once` has its flag unset and a channel from `make` is open. -/
def NewService {σ : Type} (config : ServiceConfig σ) : Option (service σ) × Option Error :=
  match config.StorageCollection with
  | none =>
    (none, maskAnyf Sentinel.invalidConfigError "storage collection must not be empty")
  | some c => (some ⟨c, ⟨false⟩, ⟨false⟩, ⟨false⟩⟩, none)

/-- What a lifecycle method does besides updating the struct: `bootLogic` is one run of
the function `Boot` hands to its `sync.Once`, `closeCloser` is `close` closing the
open `closer`, and `closePanic` is Go's panic on `close` of a closed channel. -/
inductive Effect where
  | bootLogic
  | closeCloser
  | closePanic
  deriving DecidableEq, Repr

/-- Go's builtin `close` on the `closer` channel. -/
def Chan.close (c : Chan) : Chan × List Effect :=
  if c.closed then (c, [Effect.closePanic]) else (⟨true⟩, [Effect.closeCloser])

/-- `sync.Once.Do` in a sequential program: the function runs on the data it touches
only when the flag is unset, and the flag is set afterwards. -/
def Once.Do {α : Type} (o : Once) (f : α → α × List Effect) (a : α) :
    Once × α × List Effect :=
  if o.done then (o, a, []) else (⟨true⟩, (f a).1, (f a).2)

/-- `service.Boot`: the function handed to `bootOnce.Do` has an empty body. -/
def service.Boot {σ : Type} (s : service σ) : service σ × List Effect :=
  let r := s.bootOnce.Do (fun (u : Unit) => (u, [Effect.bootLogic])) ()
  (⟨s.storage, r.1, s.closer, s.shutdownOnce⟩, r.2.2)

/-- `service.Shutdown`. -/
def service.Shutdown {σ : Type} (s : service σ) : service σ × List Effect :=
  let r := s.shutdownOnce.Do (fun c => Chan.close c) s.closer
  (⟨s.storage, s.bootOnce, r.2.1, r.1⟩, r.2.2)

/-- A lifecycle method called `n` times in a row, with the effects in order. -/
def callTimes {σ : Type} (m : service σ → service σ × List Effect) :
    Nat → service σ → service σ × List Effect
  | 0, s => (s, [])
  | n + 1, s => ((callTimes m n (m s).1).1, (m s).2 ++ (callTimes m n (m s).1).2)

/-! ## The public interface -/

/-- A Go method signature as far as this package needs it: the name, the number of
string parameters and the result types. -/
structure Method where
  name : String
  params : Nat
  results : List String
  deriving DecidableEq, Repr

/-- The `Service` interface of spec.go, method by method. -/
def Service : List Method :=
  [⟨"Boot", 0, []⟩,
   ⟨"Create", 5, ["error"]⟩,
   ⟨"Delete", 4, ["error"]⟩,
   ⟨"Exists", 4, ["bool", "error"]⟩,
   ⟨"Search", 4, ["string", "error"]⟩,
   ⟨"Shutdown", 0, []⟩]

/-- The methods service.go declares on `*service`, in source order. -/
def serviceMethods : List Method :=
  [⟨"Boot", 0, []⟩,
   ⟨"Create", 5, ["error"]⟩,
   ⟨"Delete", 4, ["error"]⟩,
   ⟨"Exists", 4, ["bool", "error"]⟩,
   ⟨"Search", 4, ["string", "error"]⟩,
   ⟨"Shutdown", 0, []⟩,
   ⟨"Update", 5, ["error"]⟩,
   ⟨"key", 4, ["string"]⟩]

/-- Whether a caller holding only a value of the interface can invoke the method of
that name: Go resolves a method call on an interface value against the method set
of the interface. -/
def callable (iface : List Method) (name : String) : Bool :=
  iface.any (fun m => m.name == name)

/-- The four key parts joined by `:` in order, as the spec words the serialization. -/
def joinedKey (ns namespaceA namespaceB valueA : String) : String :=
  String.intercalate ":" [ns, namespaceA, namespaceB, valueA]

/-! ## An in-memory store -/

/-- The four store operations, as names for fault injection. -/
inductive Op where
  | Exists
  | Get
  | Remove
  | Set
  deriving DecidableEq, Repr

/-- State of the in-memory store: its entries, newest first, and the operations that
currently fail (a backend that is unreachable for them). -/
structure MemState where
  entries : List (String × String)
  failing : List Op
  deriving DecidableEq, Repr

/-- The error a failing operation of the in-memory store returns. -/
def memFault : Error := Error.storage "backend unavailable"

/-- The in-memory key-value store: a failing operation returns `memFault` and changes
nothing; otherwise `Get` answers an absent key with the not-found signal, `Set`
replaces the entry of its key and `Remove` drops it. -/
def memIndex : StorageService MemState where
  Exists st k :=
    if Op.Exists ∈ st.failing then (false, some memFault)
    else ((st.entries.lookup k).isSome, none)
  Get st k :=
    if Op.Get ∈ st.failing then ("", some memFault)
    else match st.entries.lookup k with
      | some v => (v, none)
      | none => ("", some (Error.storeNotFound k))
  Remove st k :=
    if Op.Remove ∈ st.failing then (some memFault, st)
    else (none, ⟨st.entries.filter (fun e => e.1 != k), st.failing⟩)
  Set st k v :=
    if Op.Set ∈ st.failing then (some memFault, st)
    else (none, ⟨(k, v) :: st.entries.filter (fun e => e.1 != k), st.failing⟩)

/-- A service over the in-memory store, as `NewService` builds it. -/
def memService : service MemState :=
  ⟨⟨memIndex⟩, ⟨false⟩, ⟨false⟩, ⟨false⟩⟩

/-- What makes a `StorageService` a key-value store: a successful `Set` is what a
following successful `Get` or `Exists` of that key reports, and after a successful
`Remove` a `Get` of that key does not succeed. -/
structure StorageService.Lawful {σ : Type} (S : StorageService σ) : Prop where
  get_of_set : ∀ st k v st' r, S.Set st k v = (none, st') → S.Get st' k = (r, none) → r = v
  exists_of_set : ∀ st k v st' b,
    S.Set st k v = (none, st') → S.Exists st' k = (b, none) → b = true
  get_of_remove : ∀ st k st' r, S.Remove st k = (none, st') → S.Get st' k ≠ (r, none)

/-- What makes the keys of a `StorageService` independent: whatever a `Set` or a `Remove`
of one key returns, `Get` and `Exists` of every other key answer on the state it
leaves what they answered before. -/
structure StorageService.Framed {σ : Type} (S : StorageService σ) : Prop where
  get_set_other : ∀ st k v k2, k2 ≠ k → S.Get (S.Set st k v).2 k2 = S.Get st k2
  exists_set_other : ∀ st k v k2, k2 ≠ k → S.Exists (S.Set st k v).2 k2 = S.Exists st k2
  get_remove_other : ∀ st k k2, k2 ≠ k → S.Get (S.Remove st k).2 k2 = S.Get st k2
  exists_remove_other : ∀ st k k2, k2 ≠ k → S.Exists (S.Remove st k).2 k2 = S.Exists st k2

/-! ## Theorems -/

/-- After dropping the entries of a key, looking that key up finds nothing. -/
theorem lookup_filter_ne (k : String) (es : List (String × String)) :
    (es.filter (fun e => e.1 != k)).lookup k = none := by
  induction es with
  | nil => rfl
  | cons e es ih =>
    by_cases h : e.1 = k
    · simp only [List.filter_cons, h, bne_self_eq_false, Bool.false_eq_true, if_false, ih]
    · have h2 : (k == e.1) = false := by
        simp only [beq_eq_false_iff_ne, ne_eq]
        exact fun h3 => h h3.symm
      have h3 : (e.1 != k) = true := by simp [h]
      rw [List.filter_cons, if_pos h3]
      obtain ⟨a, b⟩ := e
      rw [List.lookup_cons, h2]
      exact ih

/-- The in-memory store is a key-value store. -/
theorem memIndex_lawful : memIndex.Lawful where
  get_of_set := by
    intro st k v st' r hset hget
    by_cases hf : Op.Set ∈ st.failing
    · simp [memIndex, hf] at hset
    · simp only [memIndex, hf, if_false, Prod.mk.injEq, true_and] at hset
      subst hset
      by_cases hg : Op.Get ∈ st.failing
      · simp [memIndex, hg] at hget
      · simp [memIndex, hg, List.lookup_cons] at hget
        exact hget.symm
  exists_of_set := by
    intro st k v st' b hset hex
    by_cases hf : Op.Set ∈ st.failing
    · simp [memIndex, hf] at hset
    · simp only [memIndex, hf, if_false, Prod.mk.injEq, true_and] at hset
      subst hset
      by_cases hg : Op.Exists ∈ st.failing
      · simp [memIndex, hg] at hex
      · simp [memIndex, hg, List.lookup_cons] at hex
        exact hex
  get_of_remove := by
    intro st k st' r hrem hget
    by_cases hf : Op.Remove ∈ st.failing
    · simp [memIndex, hf] at hrem
    · simp only [memIndex, hf, if_false, Prod.mk.injEq, true_and] at hrem
      subst hrem
      by_cases hg : Op.Get ∈ st.failing
      · simp [memIndex, hg] at hget
      · simp only [memIndex, hg, if_false, lookup_filter_ne] at hget
        simp at hget
/-- Two lists that agree after a delimiter absent from both fronts have equal fronts
and equal rests. -/
theorem split_at_delim (c : Char) :
    ∀ (x y r t : List Char), c ∉ x → c ∉ y → x ++ c :: r = y ++ c :: t → x = y ∧ r = t
  | [], [], r, t, _, _, h => by
    simp only [List.nil_append, List.cons.injEq, true_and] at h
    exact ⟨rfl, h⟩
  | [], b :: y, r, t, _, hy, h => by
    simp only [List.nil_append, List.cons_append, List.cons.injEq] at h
    exact absurd (List.mem_cons.mpr (Or.inl h.1)) hy
  | a :: x, [], r, t, hx, _, h => by
    simp only [List.nil_append, List.cons_append, List.cons.injEq] at h
    exact absurd (List.mem_cons.mpr (Or.inl h.1.symm)) hx
  | a :: x, b :: y, r, t, hx, hy, h => by
    simp only [List.cons_append, List.cons.injEq] at h
    have hx2 : c ∉ x := fun hc => hx (List.mem_cons_of_mem a hc)
    have hy2 : c ∉ y := fun hc => hy (List.mem_cons_of_mem b hc)
    obtain ⟨hxy, hrt⟩ := split_at_delim c x y r t hx2 hy2 h.2
    exact ⟨by rw [h.1, hxy], hrt⟩

/-- The characters of the composite key. -/
theorem key_data (ns namespaceA namespaceB valueA : String) :
    (service.key ns namespaceA namespaceB valueA).data
      = ns.data ++ ':' :: (namespaceA.data ++ ':' :: (namespaceB.data ++ ':' :: valueA.data)) := by
  simp [service.key, Sprintf, sprintfChars]

/-- Once the shutdown flag is set, further Shutdown calls change nothing and have no
effect. -/
theorem callTimes_shutdown_done {σ : Type} (n : Nat) (s : service σ)
    (hdone : s.shutdownOnce.done = true) :
    callTimes service.Shutdown n s = (s, []) := by
  induction n with
  | zero => rfl
  | succ n ih =>
    have hstep : service.Shutdown s = (s, []) := by
      simp [service.Shutdown, Once.Do, hdone]
    simp [callTimes, hstep, ih]

/-- Once the boot flag is set, further Boot calls change nothing and have no effect. -/
theorem callTimes_boot_done {σ : Type} (n : Nat) (s : service σ)
    (hdone : s.bootOnce.done = true) :
    callTimes service.Boot n s = (s, []) := by
  induction n with
  | zero => rfl
  | succ n ih =>
    have hstep : service.Boot s = (s, []) := by
      simp [service.Boot, Once.Do, hdone]
    simp [callTimes, hstep, ih]

/-- Looking up another key is not affected by dropping the entries of a key. -/
theorem lookup_filter_other (k k2 : String) (hne : k2 ≠ k) (es : List (String × String)) :
    (es.filter (fun e => e.1 != k)).lookup k2 = es.lookup k2 := by
  induction es with
  | nil => rfl
  | cons e es ih =>
    obtain ⟨a, b⟩ := e
    by_cases h : a = k
    · have h2 : (k2 == a) = false := by
        simp only [beq_eq_false_iff_ne, ne_eq]
        exact fun h3 => hne (h3.trans h)
      simp only [List.filter_cons, h, bne_self_eq_false, Bool.false_eq_true, if_false]
      rw [ih, List.lookup_cons, ← h, h2]
    · have h3 : (a != k) = true := by simp [h]
      simp only [List.filter_cons, h3, if_true]
      rw [List.lookup_cons, List.lookup_cons, ih]

/-- The keys of the in-memory store are independent. -/
theorem memIndex_framed : memIndex.Framed where
  get_set_other := by
    intro st k v k2 hne
    have h2 : (k2 == k) = false := by simpa using hne
    by_cases hf : Op.Set ∈ st.failing
    · simp [memIndex, hf]
    · simp [memIndex, hf, List.lookup_cons, h2, lookup_filter_other k k2 hne]
  exists_set_other := by
    intro st k v k2 hne
    have h2 : (k2 == k) = false := by simpa using hne
    by_cases hf : Op.Set ∈ st.failing
    · simp [memIndex, hf]
    · simp [memIndex, hf, List.lookup_cons, h2, lookup_filter_other k k2 hne]
  get_remove_other := by
    intro st k k2 hne
    by_cases hf : Op.Remove ∈ st.failing
    · simp [memIndex, hf]
    · simp [memIndex, hf, lookup_filter_other k k2 hne]
  exists_remove_other := by
    intro st k k2 hne
    by_cases hf : Op.Remove ∈ st.failing
    · simp [memIndex, hf]
    · simp [memIndex, hf, lookup_filter_other k k2 hne]

/-- C1. Create never overwrites: when the store's Exists reports the composite key as
present, Create returns nil, its only store call is that Exists (no Set), and the
store state, hence also what Get reports under the key, is what it was. -/
theorem create_never_overwrites {σ : Type} (s : service σ) (st : σ)
    (ns namespaceA namespaceB valueA valueB : String)
    (hpresent : s.storage.Index.Exists st (service.key ns namespaceA namespaceB valueA)
      = (true, none)) :
    (s.Create st ns namespaceA namespaceB valueA valueB).ret = none
    ∧ (s.Create st ns namespaceA namespaceB valueA valueB).calls
        = [Call.Exists (service.key ns namespaceA namespaceB valueA)]
    ∧ (∀ k v, Call.Set k v ∉ (s.Create st ns namespaceA namespaceB valueA valueB).calls)
    ∧ (s.Create st ns namespaceA namespaceB valueA valueB).store = st
    ∧ s.storage.Index.Get (s.Create st ns namespaceA namespaceB valueA valueB).store
        (service.key ns namespaceA namespaceB valueA)
      = s.storage.Index.Get st (service.key ns namespaceA namespaceB valueA) := by
  simp [service.Create, hpresent]

/-- C1, at the in-memory store holding the key with another value. -/
theorem create_never_overwrites_witness :
    memIndex.Exists ⟨[("ns:a1:b1:va", "vb")], []⟩ (service.key "ns" "a1" "b1" "va")
      = (true, none)
    ∧ (memService.Create ⟨[("ns:a1:b1:va", "vb")], []⟩ "ns" "a1" "b1" "va" "OTHER").ret = none
    ∧ (memService.Create ⟨[("ns:a1:b1:va", "vb")], []⟩ "ns" "a1" "b1" "va" "OTHER").calls
        = [Call.Exists (service.key "ns" "a1" "b1" "va")]
    ∧ (∀ k v, Call.Set k v ∉
        (memService.Create ⟨[("ns:a1:b1:va", "vb")], []⟩ "ns" "a1" "b1" "va" "OTHER").calls)
    ∧ (memService.Create ⟨[("ns:a1:b1:va", "vb")], []⟩ "ns" "a1" "b1" "va" "OTHER").store
        = ⟨[("ns:a1:b1:va", "vb")], []⟩
    ∧ memIndex.Get
        (memService.Create ⟨[("ns:a1:b1:va", "vb")], []⟩ "ns" "a1" "b1" "va" "OTHER").store
        (service.key "ns" "a1" "b1" "va")
      = memIndex.Get ⟨[("ns:a1:b1:va", "vb")], []⟩ (service.key "ns" "a1" "b1" "va") :=
  ⟨by decide,
   create_never_overwrites memService ⟨[("ns:a1:b1:va", "vb")], []⟩ "ns" "a1" "b1" "va" "OTHER"
     (by decide)⟩

/-- C2. Create/Search round trip: on a key-value store where the composite key is absent
and where the Set of Create and the Get of Search succeed, Create returns nil and
the following Search returns valueB with a nil error. -/
theorem create_search_round_trip {σ : Type} (s : service σ)
    (hlaw : s.storage.Index.Lawful) (st : σ)
    (ns namespaceA namespaceB valueA valueB : String)
    (habsent : s.storage.Index.Exists st (service.key ns namespaceA namespaceB valueA)
      = (false, none))
    (hset : (s.storage.Index.Set st (service.key ns namespaceA namespaceB valueA) valueB).1
      = none)
    (hget : (s.storage.Index.Get
        (s.storage.Index.Set st (service.key ns namespaceA namespaceB valueA) valueB).2
        (service.key ns namespaceA namespaceB valueA)).2 = none) :
    (s.Create st ns namespaceA namespaceB valueA valueB).ret = none
    ∧ (s.Search (s.Create st ns namespaceA namespaceB valueA valueB).store
        ns namespaceA namespaceB valueA).ret = (valueB, none) := by
  have hval := hlaw.get_of_set st (service.key ns namespaceA namespaceB valueA) valueB
    (s.storage.Index.Set st (service.key ns namespaceA namespaceB valueA) valueB).2
    (s.storage.Index.Get
        (s.storage.Index.Set st (service.key ns namespaceA namespaceB valueA) valueB).2
        (service.key ns namespaceA namespaceB valueA)).1
    (Prod.ext hset rfl) (Prod.ext rfl hget)
  simp [service.Create, service.Search, habsent, hset, hget, hval, storageerror.IsNotFound]

/-- C2, at the empty in-memory store. -/
theorem create_search_round_trip_witness :
    (memService.Create ⟨[], []⟩ "ns" "a1" "b1" "va" "vb").ret = none
    ∧ (memService.Search (memService.Create ⟨[], []⟩ "ns" "a1" "b1" "va" "vb").store
        "ns" "a1" "b1" "va").ret = ("vb", none) :=
  create_search_round_trip memService memIndex_lawful ⟨[], []⟩ "ns" "a1" "b1" "va" "vb"
    (by decide) (by decide) (by decide)

/-- C3. Update requires existence and never creates: when the store's Exists reports the
composite key as absent, Update returns the NotFoundError of that key, its only
store call is that Exists (no Set), the store state is what it was, and the key
is still reported absent afterwards. -/
theorem update_absent_not_found {σ : Type} (s : service σ) (st : σ)
    (ns namespaceA namespaceB valueA valueB : String)
    (habsent : s.storage.Index.Exists st (service.key ns namespaceA namespaceB valueA)
      = (false, none)) :
    IsNotFound (s.Update st ns namespaceA namespaceB valueA valueB).ret = true
    ∧ (s.Update st ns namespaceA namespaceB valueA valueB).ret
        = some (Error.notFound (service.key ns namespaceA namespaceB valueA))
    ∧ (s.Update st ns namespaceA namespaceB valueA valueB).calls
        = [Call.Exists (service.key ns namespaceA namespaceB valueA)]
    ∧ (∀ k v, Call.Set k v ∉ (s.Update st ns namespaceA namespaceB valueA valueB).calls)
    ∧ (s.Update st ns namespaceA namespaceB valueA valueB).store = st
    ∧ s.storage.Index.Exists (s.Update st ns namespaceA namespaceB valueA valueB).store
        (service.key ns namespaceA namespaceB valueA) = (false, none) := by
  simp [service.Update, habsent, maskAnyf, IsNotFound]

/-- C3, at the empty in-memory store. -/
theorem update_absent_not_found_witness :
    IsNotFound (memService.Update ⟨[], []⟩ "ns" "a1" "b1" "va" "vb").ret = true
    ∧ (memService.Update ⟨[], []⟩ "ns" "a1" "b1" "va" "vb").ret
        = some (Error.notFound (service.key "ns" "a1" "b1" "va"))
    ∧ (memService.Update ⟨[], []⟩ "ns" "a1" "b1" "va" "vb").calls
        = [Call.Exists (service.key "ns" "a1" "b1" "va")]
    ∧ (∀ k v, Call.Set k v ∉ (memService.Update ⟨[], []⟩ "ns" "a1" "b1" "va" "vb").calls)
    ∧ (memService.Update ⟨[], []⟩ "ns" "a1" "b1" "va" "vb").store = ⟨[], []⟩
    ∧ memIndex.Exists (memService.Update ⟨[], []⟩ "ns" "a1" "b1" "va" "vb").store
        (service.key "ns" "a1" "b1" "va") = (false, none) :=
  update_absent_not_found memService ⟨[], []⟩ "ns" "a1" "b1" "va" "vb" (by decide)

/-- C4. Update/Search round trip: on a key-value store where the composite key is present,
whatever its old value, and where the Set of Update and the Get of Search succeed,
Update returns nil and the following Search returns valueB with a nil error. -/
theorem update_search_round_trip {σ : Type} (s : service σ)
    (hlaw : s.storage.Index.Lawful) (st : σ)
    (ns namespaceA namespaceB valueA valueB : String)
    (hpresent : s.storage.Index.Exists st (service.key ns namespaceA namespaceB valueA)
      = (true, none))
    (hset : (s.storage.Index.Set st (service.key ns namespaceA namespaceB valueA) valueB).1
      = none)
    (hget : (s.storage.Index.Get
        (s.storage.Index.Set st (service.key ns namespaceA namespaceB valueA) valueB).2
        (service.key ns namespaceA namespaceB valueA)).2 = none) :
    (s.Update st ns namespaceA namespaceB valueA valueB).ret = none
    ∧ (s.Search (s.Update st ns namespaceA namespaceB valueA valueB).store
        ns namespaceA namespaceB valueA).ret = (valueB, none) := by
  have hval := hlaw.get_of_set st (service.key ns namespaceA namespaceB valueA) valueB
    (s.storage.Index.Set st (service.key ns namespaceA namespaceB valueA) valueB).2
    (s.storage.Index.Get
        (s.storage.Index.Set st (service.key ns namespaceA namespaceB valueA) valueB).2
        (service.key ns namespaceA namespaceB valueA)).1
    (Prod.ext hset rfl) (Prod.ext rfl hget)
  simp [service.Update, service.Search, hpresent, hset, hget, hval, storageerror.IsNotFound]

/-- C4, at the in-memory store holding the key with an old value. -/
theorem update_search_round_trip_witness :
    (memService.Update ⟨[("ns:a1:b1:va", "vb")], []⟩ "ns" "a1" "b1" "va" "vb2").ret = none
    ∧ (memService.Search
        (memService.Update ⟨[("ns:a1:b1:va", "vb")], []⟩ "ns" "a1" "b1" "va" "vb2").store
        "ns" "a1" "b1" "va").ret = ("vb2", none) :=
  update_search_round_trip memService memIndex_lawful ⟨[("ns:a1:b1:va", "vb")], []⟩
    "ns" "a1" "b1" "va" "vb2" (by decide) (by decide) (by decide)

/-- C5. Search classifies the store's Get result into three outcomes that cover every
case: on the store's not-found signal it returns the empty string and the
NotFoundError of the key; on any other error it returns the empty string and that
same error; on a value with nil error it returns that value with nil error.  Its
one store call is the Get, and the store state is untouched. -/
theorem search_classifies {σ : Type} (s : service σ) (st : σ)
    (ns namespaceA namespaceB valueA : String) :
    (storageerror.IsNotFound
        (s.storage.Index.Get st (service.key ns namespaceA namespaceB valueA)).2 = true →
      (s.Search st ns namespaceA namespaceB valueA).ret
        = ("", some (Error.notFound (service.key ns namespaceA namespaceB valueA))))
    ∧ (∀ e, (s.storage.Index.Get st (service.key ns namespaceA namespaceB valueA)).2 = some e →
        storageerror.IsNotFound (some e) = false →
        (s.Search st ns namespaceA namespaceB valueA).ret = ("", some e))
    ∧ (∀ v, s.storage.Index.Get st (service.key ns namespaceA namespaceB valueA) = (v, none) →
        (s.Search st ns namespaceA namespaceB valueA).ret = (v, none))
    ∧ (storageerror.IsNotFound
          (s.storage.Index.Get st (service.key ns namespaceA namespaceB valueA)).2 = true
        ∨ (∃ e, (s.storage.Index.Get st (service.key ns namespaceA namespaceB valueA)).2 = some e
            ∧ storageerror.IsNotFound (some e) = false)
        ∨ ∃ v, s.storage.Index.Get st (service.key ns namespaceA namespaceB valueA) = (v, none))
    ∧ (s.Search st ns namespaceA namespaceB valueA).calls
        = [Call.Get (service.key ns namespaceA namespaceB valueA)]
    ∧ (s.Search st ns namespaceA namespaceB valueA).store = st := by
  refine ⟨?_, ?_, ?_, ?_, ?_, ?_⟩
  · intro h
    simp [service.Search, h, maskAnyf]
  · intro e he hnf
    simp [service.Search, he, hnf, maskAny]
  · intro v hv
    simp [service.Search, hv, storageerror.IsNotFound]
  · rcases hg : s.storage.Index.Get st (service.key ns namespaceA namespaceB valueA)
      with ⟨v, _ | e⟩
    · exact Or.inr (Or.inr ⟨v, rfl⟩)
    · cases hnf : storageerror.IsNotFound (some e)
      · exact Or.inr (Or.inl ⟨e, rfl, hnf⟩)
      · exact Or.inl rfl
  · simp only [service.Search]
    split_ifs <;> rfl
  · simp only [service.Search]
    split_ifs <;> rfl

/-- C5, at the in-memory store: an absent key, a failing Get and a present key. -/
theorem search_classifies_witness :
    (memService.Search ⟨[], []⟩ "ns" "a1" "b1" "va").ret
        = ("", some (Error.notFound "ns:a1:b1:va"))
    ∧ (memService.Search ⟨[("ns:a1:b1:va", "vb")], [Op.Get]⟩ "ns" "a1" "b1" "va").ret
        = ("", some memFault)
    ∧ (memService.Search ⟨[("ns:a1:b1:va", "vb")], []⟩ "ns" "a1" "b1" "va").ret
        = ("vb", none) :=
  ⟨(search_classifies memService ⟨[], []⟩ "ns" "a1" "b1" "va").1 (by decide),
   (search_classifies memService ⟨[("ns:a1:b1:va", "vb")], [Op.Get]⟩
      "ns" "a1" "b1" "va").2.1 memFault (by decide) (by decide),
   (search_classifies memService ⟨[("ns:a1:b1:va", "vb")], []⟩
      "ns" "a1" "b1" "va").2.2.1 "vb" (by decide)⟩

/-- C6 as stated fails: with a store whose Get fails for another reason, Exists returns
false although Search does not return a NotFoundError. -/
theorem failing_get_breaks_exists_iff :
    (memService.Exists ⟨[("ns:a1:b1:va", "vb")], [Op.Get]⟩ "ns" "a1" "b1" "va").ret
        = (false, some memFault)
    ∧ (memService.Search ⟨[("ns:a1:b1:va", "vb")], [Op.Get]⟩ "ns" "a1" "b1" "va").ret
        = ("", some memFault)
    ∧ IsNotFound
        (memService.Search ⟨[("ns:a1:b1:va", "vb")], [Op.Get]⟩ "ns" "a1" "b1" "va").ret.2
        = false
    ∧ ¬ ((memService.Exists ⟨[("ns:a1:b1:va", "vb")], [Op.Get]⟩ "ns" "a1" "b1" "va").ret.1
          = true
        ↔ IsNotFound
            (memService.Search ⟨[("ns:a1:b1:va", "vb")], [Op.Get]⟩ "ns" "a1" "b1" "va").ret.2
          = false) := by
  decide

/-- C6, amended. Exists returns true exactly when Search returns a nil error; and whenever
Search does not fail with an error other than NotFoundError, Exists returns true
exactly when Search does not return a NotFoundError. -/
theorem exists_consistency {σ : Type} (s : service σ) (st : σ)
    (ns namespaceA namespaceB valueA : String) :
    ((s.Exists st ns namespaceA namespaceB valueA).ret.1 = true
      ↔ (s.Search st ns namespaceA namespaceB valueA).ret.2 = none)
    ∧ ((s.Search st ns namespaceA namespaceB valueA).ret.2 = none
        ∨ IsNotFound (s.Search st ns namespaceA namespaceB valueA).ret.2 = true →
      ((s.Exists st ns namespaceA namespaceB valueA).ret.1 = true
        ↔ IsNotFound (s.Search st ns namespaceA namespaceB valueA).ret.2 = false)) := by
  simp only [service.Exists]
  rcases h : (s.Search st ns namespaceA namespaceB valueA).ret.2 with _ | e
  · simp [IsNotFound]
  · cases e <;> simp [IsNotFound]

/-- C6 amended, at the in-memory store: a present key and an absent key. -/
theorem exists_consistency_witness :
    ((memService.Exists ⟨[("ns:a1:b1:va", "vb")], []⟩ "ns" "a1" "b1" "va").ret.1 = true
      ↔ IsNotFound
          (memService.Search ⟨[("ns:a1:b1:va", "vb")], []⟩ "ns" "a1" "b1" "va").ret.2 = false)
    ∧ ((memService.Exists ⟨[], []⟩ "ns" "a1" "b1" "va").ret.1 = true
      ↔ IsNotFound (memService.Search ⟨[], []⟩ "ns" "a1" "b1" "va").ret.2 = false) :=
  ⟨(exists_consistency memService ⟨[("ns:a1:b1:va", "vb")], []⟩ "ns" "a1" "b1" "va").2
      (Or.inl (by decide)),
   (exists_consistency memService ⟨[], []⟩ "ns" "a1" "b1" "va").2 (Or.inr (by decide))⟩

/-- C7. Exists is derived from Search: it returns (false, nil) when Search returns a
NotFoundError, (true, nil) when Search returns a nil error, and false together with
that same non-nil error when Search returns any other error.  It makes no store
call of its own. -/
theorem exists_derived_from_search {σ : Type} (s : service σ) (st : σ)
    (ns namespaceA namespaceB valueA : String) :
    (IsNotFound (s.Search st ns namespaceA namespaceB valueA).ret.2 = true →
      (s.Exists st ns namespaceA namespaceB valueA).ret = (false, none))
    ∧ ((s.Search st ns namespaceA namespaceB valueA).ret.2 = none →
      (s.Exists st ns namespaceA namespaceB valueA).ret = (true, none))
    ∧ (∀ e, (s.Search st ns namespaceA namespaceB valueA).ret.2 = some e →
        IsNotFound (some e) = false →
        (s.Exists st ns namespaceA namespaceB valueA).ret = (false, some e)
        ∧ (s.Exists st ns namespaceA namespaceB valueA).ret.2 ≠ none)
    ∧ (s.Exists st ns namespaceA namespaceB valueA).calls
        = (s.Search st ns namespaceA namespaceB valueA).calls
    ∧ (s.Exists st ns namespaceA namespaceB valueA).store
        = (s.Search st ns namespaceA namespaceB valueA).store := by
  refine ⟨?_, ?_, ?_, ?_, ?_⟩
  · intro h
    simp [service.Exists, h]
  · intro h
    simp [service.Exists, h, IsNotFound]
  · intro e he hnf
    simp [service.Exists, he, hnf, maskAny]
  · simp only [service.Exists]
    split_ifs <;> rfl
  · simp only [service.Exists]
    split_ifs <;> rfl

/-- C7, at the in-memory store: an absent key, a present key and a failing Get. -/
theorem exists_derived_from_search_witness :
    (memService.Exists ⟨[], []⟩ "ns" "a1" "b1" "va").ret = (false, none)
    ∧ (memService.Exists ⟨[("ns:a1:b1:va", "vb")], []⟩ "ns" "a1" "b1" "va").ret = (true, none)
    ∧ (memService.Exists ⟨[("ns:a1:b1:va", "vb")], [Op.Get]⟩ "ns" "a1" "b1" "va").ret
        = (false, some memFault) :=
  ⟨(exists_derived_from_search memService ⟨[], []⟩ "ns" "a1" "b1" "va").1 (by decide),
   (exists_derived_from_search memService ⟨[("ns:a1:b1:va", "vb")], []⟩
      "ns" "a1" "b1" "va").2.1 (by decide),
   ((exists_derived_from_search memService ⟨[("ns:a1:b1:va", "vb")], [Op.Get]⟩
      "ns" "a1" "b1" "va").2.2.1 memFault (by decide) (by decide)).1⟩

/-- C8 as stated fails: with a store whose Remove fails, Delete returns that error, the
entry stays, and the following Search returns the value and Exists returns true.
And with a store whose Remove succeeds but whose Get fails for another reason,
the following Search returns that error, which is no NotFoundError, and Exists
returns it too. -/
theorem failed_delete_leaves_entry :
    (memService.Delete ⟨[("ns:a1:b1:va", "vb")], [Op.Remove]⟩ "ns" "a1" "b1" "va").ret
        = some memFault
    ∧ (memService.Search
        (memService.Delete ⟨[("ns:a1:b1:va", "vb")], [Op.Remove]⟩ "ns" "a1" "b1" "va").store
        "ns" "a1" "b1" "va").ret = ("vb", none)
    ∧ IsNotFound (memService.Search
        (memService.Delete ⟨[("ns:a1:b1:va", "vb")], [Op.Remove]⟩ "ns" "a1" "b1" "va").store
        "ns" "a1" "b1" "va").ret.2 = false
    ∧ (memService.Exists
        (memService.Delete ⟨[("ns:a1:b1:va", "vb")], [Op.Remove]⟩ "ns" "a1" "b1" "va").store
        "ns" "a1" "b1" "va").ret = (true, none)
    ∧ (memService.Delete ⟨[("ns:a1:b1:va", "vb")], [Op.Get]⟩ "ns" "a1" "b1" "va").ret = none
    ∧ (memService.Search
        (memService.Delete ⟨[("ns:a1:b1:va", "vb")], [Op.Get]⟩ "ns" "a1" "b1" "va").store
        "ns" "a1" "b1" "va").ret = ("", some memFault)
    ∧ IsNotFound (some memFault) = false
    ∧ (memService.Exists
        (memService.Delete ⟨[("ns:a1:b1:va", "vb")], [Op.Get]⟩ "ns" "a1" "b1" "va").store
        "ns" "a1" "b1" "va").ret = (false, some memFault) := by
  decide

/-- C8, amended. On a key-value store whose Remove of the composite key succeeds and whose
following Get of it fails with nothing but the not-found signal, Delete returns
nil, the following Search returns the NotFoundError of the key and the following
Exists returns (false, nil). -/
theorem delete_then_search {σ : Type} (s : service σ)
    (hlaw : s.storage.Index.Lawful) (st : σ)
    (ns namespaceA namespaceB valueA : String)
    (hremove : (s.storage.Index.Remove st (service.key ns namespaceA namespaceB valueA)).1
      = none)
    (hget : ∀ e, (s.storage.Index.Get
        (s.storage.Index.Remove st (service.key ns namespaceA namespaceB valueA)).2
        (service.key ns namespaceA namespaceB valueA)).2 = some e →
      storageerror.IsNotFound (some e) = true) :
    (s.Delete st ns namespaceA namespaceB valueA).ret = none
    ∧ (s.Search (s.Delete st ns namespaceA namespaceB valueA).store
        ns namespaceA namespaceB valueA).ret
        = ("", some (Error.notFound (service.key ns namespaceA namespaceB valueA)))
    ∧ IsNotFound (s.Search (s.Delete st ns namespaceA namespaceB valueA).store
        ns namespaceA namespaceB valueA).ret.2 = true
    ∧ (s.Exists (s.Delete st ns namespaceA namespaceB valueA).store
        ns namespaceA namespaceB valueA).ret = (false, none) := by
  have hstore : (s.Delete st ns namespaceA namespaceB valueA).store
      = (s.storage.Index.Remove st (service.key ns namespaceA namespaceB valueA)).2 := by
    simp only [service.Delete]
    split_ifs <;> rfl
  have hgone := hlaw.get_of_remove st (service.key ns namespaceA namespaceB valueA)
    (s.storage.Index.Remove st (service.key ns namespaceA namespaceB valueA)).2
    (s.storage.Index.Get
        (s.storage.Index.Remove st (service.key ns namespaceA namespaceB valueA)).2
        (service.key ns namespaceA namespaceB valueA)).1
    (Prod.ext hremove rfl)
  have hsignal : storageerror.IsNotFound (s.storage.Index.Get
      (s.storage.Index.Remove st (service.key ns namespaceA namespaceB valueA)).2
      (service.key ns namespaceA namespaceB valueA)).2 = true := by
    rcases herr : (s.storage.Index.Get
      (s.storage.Index.Remove st (service.key ns namespaceA namespaceB valueA)).2
      (service.key ns namespaceA namespaceB valueA)).2 with _ | e
    · exact (hgone (Prod.ext rfl herr)).elim
    · exact hget e herr
  have hsearch : (s.Search (s.Delete st ns namespaceA namespaceB valueA).store
      ns namespaceA namespaceB valueA).ret
      = ("", some (Error.notFound (service.key ns namespaceA namespaceB valueA))) := by
    rw [hstore]
    simp [service.Search, hsignal, maskAnyf]
  refine ⟨?_, hsearch, ?_, ?_⟩
  · simp [service.Delete, hremove]
  · rw [hsearch]
    rfl
  · simp [service.Exists, hsearch, IsNotFound]

/-- C8 amended, at the in-memory store holding the key. -/
theorem delete_then_search_witness :
    (memService.Delete ⟨[("ns:a1:b1:va", "vb")], []⟩ "ns" "a1" "b1" "va").ret = none
    ∧ (memService.Search
        (memService.Delete ⟨[("ns:a1:b1:va", "vb")], []⟩ "ns" "a1" "b1" "va").store
        "ns" "a1" "b1" "va").ret
        = ("", some (Error.notFound (service.key "ns" "a1" "b1" "va")))
    ∧ IsNotFound (memService.Search
        (memService.Delete ⟨[("ns:a1:b1:va", "vb")], []⟩ "ns" "a1" "b1" "va").store
        "ns" "a1" "b1" "va").ret.2 = true
    ∧ (memService.Exists
        (memService.Delete ⟨[("ns:a1:b1:va", "vb")], []⟩ "ns" "a1" "b1" "va").store
        "ns" "a1" "b1" "va").ret = (false, none) :=
  delete_then_search memService memIndex_lawful ⟨[("ns:a1:b1:va", "vb")], []⟩
    "ns" "a1" "b1" "va" (by decide) (by decide)

/-- C9 as stated fails: when the key is already present with another value, Create with
v1 and then Create with v2 leave that older value, not v1.  And with a store whose
Set fails, both calls return that error, the second one too. -/
theorem present_key_keeps_older_value :
    (memService.Create ⟨[("ns:a1:b1:va", "old")], []⟩ "ns" "a1" "b1" "va" "v1").ret = none
    ∧ (memService.Create
        (memService.Create ⟨[("ns:a1:b1:va", "old")], []⟩ "ns" "a1" "b1" "va" "v1").store
        "ns" "a1" "b1" "va" "v2").ret = none
    ∧ (memService.Search
        (memService.Create
          (memService.Create ⟨[("ns:a1:b1:va", "old")], []⟩ "ns" "a1" "b1" "va" "v1").store
          "ns" "a1" "b1" "va" "v2").store
        "ns" "a1" "b1" "va").ret = ("old", none)
    ∧ (memService.Search
        (memService.Create
          (memService.Create ⟨[("ns:a1:b1:va", "old")], []⟩ "ns" "a1" "b1" "va" "v1").store
          "ns" "a1" "b1" "va" "v2").store
        "ns" "a1" "b1" "va").ret ≠ ("v1", none)
    ∧ (memService.Create ⟨[], [Op.Set]⟩ "ns" "a1" "b1" "va" "v1").ret = some memFault
    ∧ (memService.Create
        (memService.Create ⟨[], [Op.Set]⟩ "ns" "a1" "b1" "va" "v1").store
        "ns" "a1" "b1" "va" "v2").ret = some memFault := by
  decide

/-- C9, amended. On a key-value store where the composite key is absent beforehand, the
Set of the first Create succeeds and the Exists of the second Create succeeds:
the first Create returns nil, the second returns nil after its Exists call alone
and leaves the store state of the first, and a successful Get of the key then
returns v1, so that Search returns v1 and not v2. -/
theorem create_twice_keeps_first {σ : Type} (s : service σ)
    (hlaw : s.storage.Index.Lawful) (st : σ)
    (ns namespaceA namespaceB valueA v1 v2 : String)
    (habsent : s.storage.Index.Exists st (service.key ns namespaceA namespaceB valueA)
      = (false, none))
    (hset : (s.storage.Index.Set st (service.key ns namespaceA namespaceB valueA) v1).1
      = none)
    (hexists : (s.storage.Index.Exists
        (s.storage.Index.Set st (service.key ns namespaceA namespaceB valueA) v1).2
        (service.key ns namespaceA namespaceB valueA)).2 = none) :
    (s.Create st ns namespaceA namespaceB valueA v1).ret = none
    ∧ (s.Create (s.Create st ns namespaceA namespaceB valueA v1).store
        ns namespaceA namespaceB valueA v2).ret = none
    ∧ (s.Create (s.Create st ns namespaceA namespaceB valueA v1).store
        ns namespaceA namespaceB valueA v2).calls
        = [Call.Exists (service.key ns namespaceA namespaceB valueA)]
    ∧ (s.Create (s.Create st ns namespaceA namespaceB valueA v1).store
        ns namespaceA namespaceB valueA v2).store
        = (s.Create st ns namespaceA namespaceB valueA v1).store
    ∧ (∀ r, s.storage.Index.Get
          (s.Create (s.Create st ns namespaceA namespaceB valueA v1).store
            ns namespaceA namespaceB valueA v2).store
          (service.key ns namespaceA namespaceB valueA) = (r, none) →
        r = v1
        ∧ (s.Search
            (s.Create (s.Create st ns namespaceA namespaceB valueA v1).store
              ns namespaceA namespaceB valueA v2).store
            ns namespaceA namespaceB valueA).ret = (v1, none)) := by
  have hfirst : s.Create st ns namespaceA namespaceB valueA v1
      = ⟨none, (s.storage.Index.Set st (service.key ns namespaceA namespaceB valueA) v1).2,
          [Call.Exists (service.key ns namespaceA namespaceB valueA),
           Call.Set (service.key ns namespaceA namespaceB valueA) v1]⟩ := by
    simp [service.Create, habsent, hset]
  have hseen := hlaw.exists_of_set st (service.key ns namespaceA namespaceB valueA) v1
    (s.storage.Index.Set st (service.key ns namespaceA namespaceB valueA) v1).2
    (s.storage.Index.Exists
        (s.storage.Index.Set st (service.key ns namespaceA namespaceB valueA) v1).2
        (service.key ns namespaceA namespaceB valueA)).1
    (Prod.ext hset rfl) (Prod.ext rfl hexists)
  have hsecond : s.Create (s.storage.Index.Set st
        (service.key ns namespaceA namespaceB valueA) v1).2
        ns namespaceA namespaceB valueA v2
      = ⟨none, (s.storage.Index.Set st (service.key ns namespaceA namespaceB valueA) v1).2,
          [Call.Exists (service.key ns namespaceA namespaceB valueA)]⟩ := by
    simp [service.Create, hexists, hseen]
  rw [hfirst]
  simp only [hsecond]
  refine ⟨trivial, trivial, trivial, trivial, ?_⟩
  intro r hr
  have hval := hlaw.get_of_set st (service.key ns namespaceA namespaceB valueA) v1
    (s.storage.Index.Set st (service.key ns namespaceA namespaceB valueA) v1).2 r
    (Prod.ext hset rfl) hr
  subst hval
  refine ⟨rfl, ?_⟩
  simp [service.Search, hr, storageerror.IsNotFound]

/-- C9 amended, at the empty in-memory store. -/
theorem create_twice_keeps_first_witness :
    (memService.Create
        (memService.Create ⟨[], []⟩ "ns" "a1" "b1" "va" "vb").store
        "ns" "a1" "b1" "va" "OTHER").ret = none
    ∧ (memService.Search
        (memService.Create
          (memService.Create ⟨[], []⟩ "ns" "a1" "b1" "va" "vb").store
          "ns" "a1" "b1" "va" "OTHER").store
        "ns" "a1" "b1" "va").ret = ("vb", none) :=
  ⟨(create_twice_keeps_first memService memIndex_lawful ⟨[], []⟩ "ns" "a1" "b1" "va"
      "vb" "OTHER" (by decide) (by decide) (by decide)).2.1,
   ((create_twice_keeps_first memService memIndex_lawful ⟨[], []⟩ "ns" "a1" "b1" "va"
      "vb" "OTHER" (by decide) (by decide) (by decide)).2.2.2.2 "vb" (by decide)).2⟩

/-- C10. Key composition: the composite key is the four parts joined by a colon in
order, and on 4-tuples none of whose parts contains a colon it is injective: equal
keys come from tuples that are equal part by part. -/
theorem key_joined_and_injective :
    (∀ ns namespaceA namespaceB valueA : String,
      service.key ns namespaceA namespaceB valueA = joinedKey ns namespaceA namespaceB valueA)
    ∧ (∀ ns namespaceA namespaceB valueA ns2 namespaceA2 namespaceB2 valueA2 : String,
        ':' ∉ ns.toList → ':' ∉ namespaceA.toList → ':' ∉ namespaceB.toList →
        ':' ∉ valueA.toList → ':' ∉ ns2.toList → ':' ∉ namespaceA2.toList →
        ':' ∉ namespaceB2.toList → ':' ∉ valueA2.toList →
        service.key ns namespaceA namespaceB valueA
          = service.key ns2 namespaceA2 namespaceB2 valueA2 →
        ns = ns2 ∧ namespaceA = namespaceA2 ∧ namespaceB = namespaceB2 ∧ valueA = valueA2) := by
  constructor
  · intro ns namespaceA namespaceB valueA
    apply String.ext
    simp [service.key, Sprintf, sprintfChars, joinedKey, String.intercalate,
      String.intercalate.go]
  · intro ns namespaceA namespaceB valueA ns2 namespaceA2 namespaceB2 valueA2
      h1 h2 h3 _ h5 h6 h7 _ hkey
    have hdata := congrArg String.data hkey
    rw [key_data, key_data] at hdata
    obtain ⟨e1, r1⟩ := split_at_delim ':' _ _ _ _ h1 h5 hdata
    obtain ⟨e2, r2⟩ := split_at_delim ':' _ _ _ _ h2 h6 r1
    obtain ⟨e3, e4⟩ := split_at_delim ':' _ _ _ _ h3 h7 r2
    exact ⟨String.ext e1, String.ext e2, String.ext e3, String.ext e4⟩

/-- C10, at two concrete tuples: the key of one tuple, and two colon-free tuples with
the same key. -/
theorem key_joined_and_injective_witness :
    service.key "ns" "a1" "b1" "va" = joinedKey "ns" "a1" "b1" "va"
    ∧ ("ns" = "ns" ∧ "a1" = "a1" ∧ "b1" = "b1" ∧ "va" = "va") :=
  ⟨key_joined_and_injective.1 "ns" "a1" "b1" "va",
   key_joined_and_injective.2 "ns" "a1" "b1" "va" "ns" "a1" "b1" "va"
     (by decide) (by decide) (by decide) (by decide)
     (by decide) (by decide) (by decide) (by decide) rfl⟩

/-- C11. Delete is unconditional and passes the store's verdict through: its one store call
is Remove on the composite key, with no Exists or Get before it; it returns nil
exactly when Remove returns nil and otherwise returns the error of Remove; the
store state it leaves is the one Remove leaves. -/
theorem delete_passes_remove_through {σ : Type} (s : service σ) (st : σ)
    (ns namespaceA namespaceB valueA : String) :
    (s.Delete st ns namespaceA namespaceB valueA).calls
        = [Call.Remove (service.key ns namespaceA namespaceB valueA)]
    ∧ (∀ k, Call.Exists k ∉ (s.Delete st ns namespaceA namespaceB valueA).calls
        ∧ Call.Get k ∉ (s.Delete st ns namespaceA namespaceB valueA).calls)
    ∧ ((s.Delete st ns namespaceA namespaceB valueA).ret = none
        ↔ (s.storage.Index.Remove st (service.key ns namespaceA namespaceB valueA)).1 = none)
    ∧ (s.Delete st ns namespaceA namespaceB valueA).ret
        = (s.storage.Index.Remove st (service.key ns namespaceA namespaceB valueA)).1
    ∧ (s.Delete st ns namespaceA namespaceB valueA).store
        = (s.storage.Index.Remove st (service.key ns namespaceA namespaceB valueA)).2 := by
  rcases h : (s.storage.Index.Remove st (service.key ns namespaceA namespaceB valueA)).1
    with _ | e <;> simp [service.Delete, h, maskAny]

/-- C12. The NotFoundError carries the composite key: when the store's Get answers with
its not-found signal, Search returns the NotFoundError holding exactly the
composite key, and when the store's Exists reports the key absent, Update returns
that same error, for all parts, whatever characters they contain. -/
theorem not_found_carries_key {σ : Type} (s : service σ) (st : σ)
    (ns namespaceA namespaceB valueA valueB : String) :
    (storageerror.IsNotFound
        (s.storage.Index.Get st (service.key ns namespaceA namespaceB valueA)).2 = true →
      (s.Search st ns namespaceA namespaceB valueA).ret.2
        = some (Error.notFound (service.key ns namespaceA namespaceB valueA)))
    ∧ (s.storage.Index.Exists st (service.key ns namespaceA namespaceB valueA)
        = (false, none) →
      (s.Update st ns namespaceA namespaceB valueA valueB).ret
        = some (Error.notFound (service.key ns namespaceA namespaceB valueA))) := by
  constructor
  · intro h
    simp [service.Search, h, maskAnyf]
  · intro h
    simp [service.Update, h, maskAnyf]

/-- C12, at the empty in-memory store with parts that hold percent signs. -/
theorem not_found_carries_key_witness :
    (memService.Search ⟨[], []⟩ "100%" "%s" "%d" "a%%b").ret.2
        = some (Error.notFound "100%:%s:%d:a%%b")
    ∧ (memService.Update ⟨[], []⟩ "100%" "%s" "%d" "a%%b" "vb").ret
        = some (Error.notFound "100%:%s:%d:a%%b") :=
  ⟨(not_found_carries_key memService ⟨[], []⟩ "100%" "%s" "%d" "a%%b" "vb").1 (by decide),
   (not_found_carries_key memService ⟨[], []⟩ "100%" "%s" "%d" "a%%b" "vb").2 (by decide)⟩

/-- C13. Unescaped delimiter collision: two distinct 4-tuples, with a colon inside a part,
compose to the same storage key; after Create on the first, Search on the second
returns the value created and Exists on the second returns true, and on every
store Search and Exists cannot tell the two tuples apart. -/
theorem delimiter_collision :
    ∃ a b : String × String × String × String,
      a ≠ b
      ∧ (':' ∈ a.1.toList ∨ ':' ∈ a.2.1.toList ∨ ':' ∈ a.2.2.1.toList ∨ ':' ∈ a.2.2.2.toList
          ∨ ':' ∈ b.1.toList ∨ ':' ∈ b.2.1.toList ∨ ':' ∈ b.2.2.1.toList
          ∨ ':' ∈ b.2.2.2.toList)
      ∧ service.key a.1 a.2.1 a.2.2.1 a.2.2.2 = service.key b.1 b.2.1 b.2.2.1 b.2.2.2
      ∧ (memService.Create ⟨[], []⟩ a.1 a.2.1 a.2.2.1 a.2.2.2 "vb").ret = none
      ∧ (memService.Search (memService.Create ⟨[], []⟩ a.1 a.2.1 a.2.2.1 a.2.2.2 "vb").store
          b.1 b.2.1 b.2.2.1 b.2.2.2).ret = ("vb", none)
      ∧ (memService.Exists (memService.Create ⟨[], []⟩ a.1 a.2.1 a.2.2.1 a.2.2.2 "vb").store
          b.1 b.2.1 b.2.2.1 b.2.2.2).ret = (true, none)
      ∧ (memService.Search ⟨[], []⟩ b.1 b.2.1 b.2.2.1 b.2.2.2).ret
          = ("", some (Error.notFound (service.key b.1 b.2.1 b.2.2.1 b.2.2.2)))
      ∧ ∀ (σ : Type) (s : service σ) (st : σ),
          (s.Search st a.1 a.2.1 a.2.2.1 a.2.2.2).ret = (s.Search st b.1 b.2.1 b.2.2.1 b.2.2.2).ret
          ∧ (s.Exists st a.1 a.2.1 a.2.2.1 a.2.2.2).ret
              = (s.Exists st b.1 b.2.1 b.2.2.1 b.2.2.2).ret := by
  refine ⟨("ns:a1", "b1", "va", "x"), ("ns", "a1:b1", "va", "x"),
    by decide, by decide, by decide, by decide, by decide, by decide, by decide, ?_⟩
  intro σ s st
  have hkey : service.key "ns:a1" "b1" "va" "x" = service.key "ns" "a1:b1" "va" "x" := by
    decide
  simp only [service.Exists, service.Search, hkey]
  exact ⟨trivial, trivial⟩

/-- C14. Constructor validation: NewService returns a nil service together with a
ConfigError exactly when the configured StorageCollection is nil, and for every
collection it returns a service with nil error whose store is that collection
and whose lifecycle flags are unset. -/
theorem new_service_validates {σ : Type} (config : ServiceConfig σ) :
    (((NewService config).1 = none ∧ IsInvalidConfig (NewService config).2 = true)
        ↔ config.StorageCollection = none)
    ∧ ((NewService config).1 = none ↔ config.StorageCollection = none)
    ∧ ((NewService config).2 ≠ none ↔ config.StorageCollection = none)
    ∧ (∀ c, config.StorageCollection = some c →
        ∃ s, NewService config = (some s, none) ∧ s.storage = c
          ∧ s.bootOnce.done = false ∧ s.shutdownOnce.done = false
          ∧ s.closer.closed = false) := by
  rcases config with ⟨_ | c⟩
  · simp [NewService, maskAnyf, IsInvalidConfig]
  · simp [NewService]

/-- C14, at a nil collection and at the in-memory collection. -/
theorem new_service_validates_witness :
    ((NewService (⟨none⟩ : ServiceConfig MemState)).1 = none
      ∧ IsInvalidConfig (NewService (⟨none⟩ : ServiceConfig MemState)).2 = true)
    ∧ ∃ s, NewService (⟨some ⟨memIndex⟩⟩ : ServiceConfig MemState) = (some s, none)
        ∧ s.storage = ⟨memIndex⟩
        ∧ s.bootOnce.done = false ∧ s.shutdownOnce.done = false
        ∧ s.closer.closed = false :=
  ⟨(new_service_validates (⟨none⟩ : ServiceConfig MemState)).1.mpr rfl,
   (new_service_validates (⟨some ⟨memIndex⟩⟩ : ServiceConfig MemState)).2.2.2
      ⟨memIndex⟩ rfl⟩

/-- C15. Lifecycle idempotence in sequence: on a service built by NewService, n calls of
Shutdown with n at least 1 close the closer exactly once and never hit the panic
of closing a closed channel, n calls of Boot run the boot function exactly once,
and in both cases the service after n calls is the service after one call. -/
theorem lifecycle_idempotent {σ : Type} (config : ServiceConfig σ) (s : service σ)
    (hnew : (NewService config).1 = some s) (n : Nat) (hn : 1 ≤ n) :
    (callTimes service.Shutdown n s).2 = [Effect.closeCloser]
    ∧ (callTimes service.Shutdown n s).2.count Effect.closeCloser = 1
    ∧ Effect.closePanic ∉ (callTimes service.Shutdown n s).2
    ∧ (callTimes service.Shutdown n s).1 = (service.Shutdown s).1
    ∧ (callTimes service.Shutdown n s).1.closer.closed = true
    ∧ (callTimes service.Boot n s).2 = [Effect.bootLogic]
    ∧ (callTimes service.Boot n s).2.count Effect.bootLogic = 1
    ∧ (callTimes service.Boot n s).1 = (service.Boot s).1 := by
  obtain ⟨m, rfl⟩ : ∃ m, n = m + 1 := ⟨n - 1, by omega⟩
  rcases config with ⟨_ | c⟩
  · simp [NewService] at hnew
  · simp only [NewService, Option.some.injEq] at hnew
    subst hnew
    have hshut := callTimes_shutdown_done m
      (service.Shutdown (⟨c, ⟨false⟩, ⟨false⟩, ⟨false⟩⟩ : service σ)).1
      (by simp [service.Shutdown, Once.Do])
    have hboot := callTimes_boot_done m
      (service.Boot (⟨c, ⟨false⟩, ⟨false⟩, ⟨false⟩⟩ : service σ)).1
      (by simp [service.Boot, Once.Do])
    simp only [callTimes, hshut, hboot]
    simp [service.Shutdown, service.Boot, Once.Do, Chan.close]

/-- C15, at three calls on the service over the in-memory store. -/
theorem lifecycle_idempotent_witness :
    (callTimes service.Shutdown 3 memService).2 = [Effect.closeCloser]
    ∧ (callTimes service.Shutdown 3 memService).2.count Effect.closeCloser = 1
    ∧ Effect.closePanic ∉ (callTimes service.Shutdown 3 memService).2
    ∧ (callTimes service.Shutdown 3 memService).1 = (service.Shutdown memService).1
    ∧ (callTimes service.Shutdown 3 memService).1.closer.closed = true
    ∧ (callTimes service.Boot 3 memService).2 = [Effect.bootLogic]
    ∧ (callTimes service.Boot 3 memService).2.count Effect.bootLogic = 1
    ∧ (callTimes service.Boot 3 memService).1 = (service.Boot memService).1 :=
  lifecycle_idempotent (⟨some ⟨memIndex⟩⟩ : ServiceConfig MemState) memService rfl 3
    (by decide)

/-- C16. Each operation touches one key: on a store with independent keys, for every
storage key other than the composite key, what Get and Exists of the store answer
for it is the same before and after Create, Update and Delete, whatever these
return; and every store call they issue is about the composite key. -/
theorem operations_touch_one_key {σ : Type} (s : service σ)
    (hframe : s.storage.Index.Framed) (st : σ)
    (ns namespaceA namespaceB valueA valueB k2 : String)
    (hne : k2 ≠ service.key ns namespaceA namespaceB valueA) :
    (s.storage.Index.Get (s.Create st ns namespaceA namespaceB valueA valueB).store k2
        = s.storage.Index.Get st k2
      ∧ s.storage.Index.Exists (s.Create st ns namespaceA namespaceB valueA valueB).store k2
        = s.storage.Index.Exists st k2)
    ∧ (s.storage.Index.Get (s.Update st ns namespaceA namespaceB valueA valueB).store k2
        = s.storage.Index.Get st k2
      ∧ s.storage.Index.Exists (s.Update st ns namespaceA namespaceB valueA valueB).store k2
        = s.storage.Index.Exists st k2)
    ∧ (s.storage.Index.Get (s.Delete st ns namespaceA namespaceB valueA).store k2
        = s.storage.Index.Get st k2
      ∧ s.storage.Index.Exists (s.Delete st ns namespaceA namespaceB valueA).store k2
        = s.storage.Index.Exists st k2)
    ∧ (∀ c ∈ (s.Create st ns namespaceA namespaceB valueA valueB).calls
          ++ (s.Update st ns namespaceA namespaceB valueA valueB).calls
          ++ (s.Delete st ns namespaceA namespaceB valueA).calls,
        c.key = service.key ns namespaceA namespaceB valueA) := by
  have hgs := hframe.get_set_other st (service.key ns namespaceA namespaceB valueA) valueB k2 hne
  have hes := hframe.exists_set_other st (service.key ns namespaceA namespaceB valueA)
    valueB k2 hne
  have hgr := hframe.get_remove_other st (service.key ns namespaceA namespaceB valueA) k2 hne
  have her := hframe.exists_remove_other st (service.key ns namespaceA namespaceB valueA) k2 hne
  refine ⟨⟨?_, ?_⟩, ⟨?_, ?_⟩, ⟨?_, ?_⟩, ?_⟩
  · simp only [service.Create]
    split_ifs <;> first | rfl | exact hgs
  · simp only [service.Create]
    split_ifs <;> first | rfl | exact hes
  · simp only [service.Update]
    split_ifs <;> first | rfl | exact hgs
  · simp only [service.Update]
    split_ifs <;> first | rfl | exact hes
  · simp only [service.Delete]
    split_ifs <;> exact hgr
  · simp only [service.Delete]
    split_ifs <;> exact her
  · intro c hc
    simp only [List.mem_append] at hc
    rcases hc with (hc | hc) | hc
    · simp only [service.Create] at hc
      split_ifs at hc <;> simp at hc <;>
        first
          | (rcases hc with h | h <;> simp [h, Call.key])
          | simp [hc, Call.key]
    · simp only [service.Update] at hc
      split_ifs at hc <;> simp at hc <;>
        first
          | (rcases hc with h | h <;> simp [h, Call.key])
          | simp [hc, Call.key]
    · simp only [service.Delete] at hc
      split_ifs at hc <;> simp at hc <;> simp [hc, Call.key]

/-- C16, at the in-memory store holding a second key, with a Set that fails and one that
succeeds. -/
theorem operations_touch_one_key_witness :
    (memIndex.Get (memService.Create ⟨[("other", "w")], []⟩ "ns" "a1" "b1" "va" "vb").store
        "other" = ("w", none))
    ∧ (memIndex.Get
        (memService.Update ⟨[("other", "w"), ("ns:a1:b1:va", "vb")], [Op.Set]⟩
          "ns" "a1" "b1" "va" "vb2").store "other" = ("w", none))
    ∧ (memIndex.Get
        (memService.Delete ⟨[("other", "w"), ("ns:a1:b1:va", "vb")], []⟩
          "ns" "a1" "b1" "va").store "other" = ("w", none)) :=
  ⟨((operations_touch_one_key memService memIndex_framed ⟨[("other", "w")], []⟩
      "ns" "a1" "b1" "va" "vb" "other" (by decide)).1.1).trans (by decide),
   ((operations_touch_one_key memService memIndex_framed
      ⟨[("other", "w"), ("ns:a1:b1:va", "vb")], [Op.Set]⟩
      "ns" "a1" "b1" "va" "vb2" "other" (by decide)).2.1.1).trans (by decide),
   ((operations_touch_one_key memService memIndex_framed
      ⟨[("other", "w"), ("ns:a1:b1:va", "vb")], []⟩
      "ns" "a1" "b1" "va" "vb" "other" (by decide)).2.2.1.1).trans (by decide)⟩

/-- C17. The Service interface of spec.go declares six methods, all of them declared on
the service struct, and Update is declared on the struct but is not among the
six: a caller holding only a Service value cannot invoke Update, while it can
invoke the four other CRUD methods, Boot and Shutdown. -/
theorem service_interface_lacks_update :
    Service.length = 6
    ∧ (∀ m ∈ Service, m ∈ serviceMethods)
    ∧ (⟨"Update", 5, ["error"]⟩ : Method) ∈ serviceMethods
    ∧ callable serviceMethods "Update" = true
    ∧ callable Service "Update" = false
    ∧ callable Service "Create" = true
    ∧ callable Service "Delete" = true
    ∧ callable Service "Search" = true
    ∧ callable Service "Exists" = true
    ∧ callable Service "Boot" = true
    ∧ callable Service "Shutdown" = true := by
  decide

/-- C19. Atomicity on a failed existence check: when the store's Exists returns an error,
Create and Update each return that error, which is not nil, after the Exists call
alone, with no Set, and leave the store state as it was; and when Exists succeeds
and the Set that follows fails, Create and Update return the error of that Set
after exactly one Set call. -/
theorem failed_check_is_atomic {σ : Type} (s : service σ) (st : σ)
    (ns namespaceA namespaceB valueA valueB : String) :
    (∀ e, (s.storage.Index.Exists st (service.key ns namespaceA namespaceB valueA)).2 = some e →
      ((s.Create st ns namespaceA namespaceB valueA valueB).ret = some e
        ∧ (s.Create st ns namespaceA namespaceB valueA valueB).ret ≠ none
        ∧ (s.Create st ns namespaceA namespaceB valueA valueB).calls
            = [Call.Exists (service.key ns namespaceA namespaceB valueA)]
        ∧ (∀ k v, Call.Set k v ∉ (s.Create st ns namespaceA namespaceB valueA valueB).calls)
        ∧ (s.Create st ns namespaceA namespaceB valueA valueB).store = st)
      ∧ ((s.Update st ns namespaceA namespaceB valueA valueB).ret = some e
        ∧ (s.Update st ns namespaceA namespaceB valueA valueB).ret ≠ none
        ∧ (s.Update st ns namespaceA namespaceB valueA valueB).calls
            = [Call.Exists (service.key ns namespaceA namespaceB valueA)]
        ∧ (∀ k v, Call.Set k v ∉ (s.Update st ns namespaceA namespaceB valueA valueB).calls)
        ∧ (s.Update st ns namespaceA namespaceB valueA valueB).store = st))
    ∧ (∀ e, s.storage.Index.Exists st (service.key ns namespaceA namespaceB valueA)
          = (false, none) →
        (s.storage.Index.Set st (service.key ns namespaceA namespaceB valueA) valueB).1
          = some e →
        (s.Create st ns namespaceA namespaceB valueA valueB).ret = some e
        ∧ (s.Create st ns namespaceA namespaceB valueA valueB).calls
            = [Call.Exists (service.key ns namespaceA namespaceB valueA),
               Call.Set (service.key ns namespaceA namespaceB valueA) valueB])
    ∧ (∀ e, s.storage.Index.Exists st (service.key ns namespaceA namespaceB valueA)
          = (true, none) →
        (s.storage.Index.Set st (service.key ns namespaceA namespaceB valueA) valueB).1
          = some e →
        (s.Update st ns namespaceA namespaceB valueA valueB).ret = some e
        ∧ (s.Update st ns namespaceA namespaceB valueA valueB).calls
            = [Call.Exists (service.key ns namespaceA namespaceB valueA),
               Call.Set (service.key ns namespaceA namespaceB valueA) valueB]) := by
  refine ⟨?_, ?_, ?_⟩
  · intro e he
    simp [service.Create, service.Update, he, maskAny]
  · intro e hex hset
    simp [service.Create, hex, hset, maskAny]
  · intro e hex hset
    simp [service.Update, hex, hset, maskAny]

/-- C19, at the in-memory store: a failing Exists, then a failing Set under Create and
under Update. -/
theorem failed_check_is_atomic_witness :
    ((memService.Create ⟨[], [Op.Exists]⟩ "ns" "a1" "b1" "va" "vb").ret = some memFault
      ∧ (memService.Create ⟨[], [Op.Exists]⟩ "ns" "a1" "b1" "va" "vb").store
          = ⟨[], [Op.Exists]⟩)
    ∧ ((memService.Update ⟨[("ns:a1:b1:va", "vb")], [Op.Exists]⟩
          "ns" "a1" "b1" "va" "vb2").ret = some memFault
      ∧ (memService.Update ⟨[("ns:a1:b1:va", "vb")], [Op.Exists]⟩
          "ns" "a1" "b1" "va" "vb2").store = ⟨[("ns:a1:b1:va", "vb")], [Op.Exists]⟩)
    ∧ (memService.Create ⟨[], [Op.Set]⟩ "ns" "a1" "b1" "va" "vb").ret = some memFault
    ∧ (memService.Update ⟨[("ns:a1:b1:va", "vb")], [Op.Set]⟩
          "ns" "a1" "b1" "va" "vb2").ret = some memFault :=
  ⟨⟨((failed_check_is_atomic memService ⟨[], [Op.Exists]⟩ "ns" "a1" "b1" "va" "vb").1
        memFault (by decide)).1.1,
    ((failed_check_is_atomic memService ⟨[], [Op.Exists]⟩ "ns" "a1" "b1" "va" "vb").1
        memFault (by decide)).1.2.2.2.2⟩,
   ⟨((failed_check_is_atomic memService ⟨[("ns:a1:b1:va", "vb")], [Op.Exists]⟩
        "ns" "a1" "b1" "va" "vb2").1 memFault (by decide)).2.1,
    ((failed_check_is_atomic memService ⟨[("ns:a1:b1:va", "vb")], [Op.Exists]⟩
        "ns" "a1" "b1" "va" "vb2").1 memFault (by decide)).2.2.2.2.2⟩,
   ((failed_check_is_atomic memService ⟨[], [Op.Set]⟩ "ns" "a1" "b1" "va" "vb").2.1
        memFault (by decide) (by decide)).1,
   ((failed_check_is_atomic memService ⟨[("ns:a1:b1:va", "vb")], [Op.Set]⟩
        "ns" "a1" "b1" "va" "vb2").2.2 memFault (by decide) (by decide)).1⟩

/-- C20. Search and Exists are read-only: each issues the Get of the composite key as its
one store call, hence no Set and no Remove, leaves the store state as it was, and
called again on the state it leaves returns what it returned the first time. -/
theorem search_exists_read_only {σ : Type} (s : service σ) (st : σ)
    (ns namespaceA namespaceB valueA : String) :
    (s.Search st ns namespaceA namespaceB valueA).calls
        = [Call.Get (service.key ns namespaceA namespaceB valueA)]
    ∧ (s.Exists st ns namespaceA namespaceB valueA).calls
        = [Call.Get (service.key ns namespaceA namespaceB valueA)]
    ∧ (∀ k v, Call.Set k v ∉ (s.Search st ns namespaceA namespaceB valueA).calls
        ∧ Call.Remove k ∉ (s.Search st ns namespaceA namespaceB valueA).calls
        ∧ Call.Set k v ∉ (s.Exists st ns namespaceA namespaceB valueA).calls
        ∧ Call.Remove k ∉ (s.Exists st ns namespaceA namespaceB valueA).calls)
    ∧ (s.Search st ns namespaceA namespaceB valueA).store = st
    ∧ (s.Exists st ns namespaceA namespaceB valueA).store = st
    ∧ (s.Search (s.Search st ns namespaceA namespaceB valueA).store
        ns namespaceA namespaceB valueA).ret
        = (s.Search st ns namespaceA namespaceB valueA).ret
    ∧ (s.Exists (s.Exists st ns namespaceA namespaceB valueA).store
        ns namespaceA namespaceB valueA).ret
        = (s.Exists st ns namespaceA namespaceB valueA).ret := by
  have hcalls : (s.Search st ns namespaceA namespaceB valueA).calls
      = [Call.Get (service.key ns namespaceA namespaceB valueA)] := by
    simp only [service.Search]
    split_ifs <;> rfl
  have hstore : (s.Search st ns namespaceA namespaceB valueA).store = st := by
    simp only [service.Search]
    split_ifs <;> rfl
  have hecalls : (s.Exists st ns namespaceA namespaceB valueA).calls
      = [Call.Get (service.key ns namespaceA namespaceB valueA)] := by
    refine Eq.trans ?_ hcalls
    simp only [service.Exists]
    split_ifs <;> rfl
  have hestore : (s.Exists st ns namespaceA namespaceB valueA).store = st := by
    refine Eq.trans ?_ hstore
    simp only [service.Exists]
    split_ifs <;> rfl
  refine ⟨hcalls, hecalls, ?_, hstore, hestore, ?_, ?_⟩
  · intro k v
    simp [hcalls, hecalls]
  · rw [hstore]
  · rw [hestore]

end index
